import Mathlib

/-!
Verification of the facebook crawler core (`src/crawlers/facebook/parser.py`
and `src/crawlers/facebook/database.py`) against its natural-language
specification.  Python values are shallowly embedded as the inductive `PyVal`;
code that can raise is embedded in `Except Unit`; MongoDB collections are
embedded as Lean lists with explicit upsert/insert semantics.
-/

namespace AutoCrawler

/-- Keys usable as mapping keys / path segments in the payloads the parser
navigates (strings and integers, as in the source's `safe_get` call sites). -/
inductive PyKey where
  | s (str : String)
  | i (idx : Int)
  deriving DecidableEq

/-- Shallow embedding of the Python values flowing through the parser:
`None`, ints, floats (modelled as exact rationals), strings, lists and dicts
(association lists in insertion order, keys unique). Booleans are identified
with the ints 0/1, as `isinstance(b, int)` holds in Python. -/
inductive PyVal where
  | VNone
  | VInt (n : Int)
  | VFloat (q : ℚ)
  | VStr (s : String)
  | VList (xs : List PyVal)
  | VDict (kvs : List (PyKey × PyVal))

open PyVal

/-- Python truthiness (`bool(v)`): `None`, `0`, `0.0`, `""`, `[]`, `{}` are
falsy, everything else truthy. -/
def pyTruthy : PyVal → Bool
  | VNone => false
  | VInt n => n != 0
  | VFloat q => q != 0
  | VStr s => s != ""
  | VList xs => !xs.isEmpty
  | VDict kvs => !kvs.isEmpty

/-- `d.get(k)` on an association list: first binding wins, missing key gives
`None` (the Python default). -/
def dictGet : List (PyKey × PyVal) → PyKey → PyVal
  | [], _ => VNone
  | (k, v) :: rest, key => if k = key then v else dictGet rest key

/-- `d.get(k, default)` on an association list. -/
def dictGetD : List (PyKey × PyVal) → PyKey → PyVal → PyVal
  | [], _, dflt => dflt
  | (k, v) :: rest, key, dflt => if k = key then v else dictGetD rest key dflt

/-- Python sequence indexing `xs[i]` with negative indices counting from the
end; out of range yields `none` (the source catches `IndexError`). -/
def listIndex (xs : List PyVal) (i : Int) : Option PyVal :=
  if 0 ≤ i then
    xs.get? i.toNat
  else
    let j := (xs.length : Int) + i
    if 0 ≤ j then xs.get? j.toNat else none

/-- Embedding of `safe_get(obj, *paths)` (parser.py, lines 8-31): walk the
segments; `None` propagates, a dict consumes any segment as a key, a list
consumes only integer segments as (Python) indices, anything else collapses
to `None`.  The source's `try/except IndexError` is the `none` branch of
`listIndex`. -/
def safe_get : PyVal → List PyKey → PyVal
  | obj, [] => obj
  | VNone, _ :: _ => VNone
  | VDict kvs, p :: rest => safe_get (dictGet kvs p) rest
  | VList xs, PyKey.i idx :: rest =>
      match listIndex xs idx with
      | some v => safe_get v rest
      | none => VNone
  | VList _, PyKey.s _ :: _ => VNone
  | VInt _, _ :: _ => VNone
  | VFloat _, _ :: _ => VNone
  | VStr _, _ :: _ => VNone

/-- PathResolver contract transcribed from the spec's words (spec.md §4.1):
"Navigation short-circuits to `absent` the moment the current node is
`absent`, is not a mapping when a key segment is given, is not a sequence
when an index segment is given, or an index is out of bounds", where a
segment is "a key (for mapping nodes) or an integer index (for sequence
nodes)".  Bounds are the source's (Python) bounds, negative indices counting
from the end.  Written for comparison with `safe_get`. -/
def resolveSpec (root : PyVal) (segs : List PyKey) : PyVal :=
  match segs with
  | [] => root
  | seg :: rest =>
      match root with
      | VNone => VNone
      | VDict kvs => resolveSpec (dictGet kvs seg) rest
      | VList xs =>
          match seg with
          | PyKey.i idx =>
              match listIndex xs idx with
              | some v => resolveSpec v rest
              | none => VNone
          | PyKey.s _ => VNone
      | _ => VNone

/- ### String primitives modelling the Python builtins used by the parser -/

/-- ASCII uppercase of one character (`str.upper`, restricted to ASCII as the
source only uppercases count strings like "2.9k"). -/
def upChar (c : Char) : Char :=
  if 'a' ≤ c ∧ c ≤ 'z' then Char.ofNat (c.toNat - 32) else c

/-- ASCII lowercase of one character (`str.lower`, restricted to ASCII). -/
def lowChar (c : Char) : Char :=
  if 'A' ≤ c ∧ c ≤ 'Z' then Char.ofNat (c.toNat + 32) else c

def pyUpper (s : String) : String := ⟨s.data.map upChar⟩

def pyLower (s : String) : String := ⟨s.data.map lowChar⟩

/-- `s.replace(c, '')`: drop every occurrence of the character. -/
def pyDropChar (s : String) (c : Char) : String :=
  ⟨s.data.filter (fun d => d ≠ c)⟩

/-- `s.strip()`: drop leading and trailing whitespace. -/
def pyStrip (s : String) : String :=
  ⟨(((s.data.dropWhile Char.isWhitespace).reverse.dropWhile
      Char.isWhitespace).reverse)⟩

/-- `c in s` for a single character. -/
def pyContainsChar (s : String) (c : Char) : Bool := s.data.contains c

def digitVal (c : Char) : Nat := c.toNat - 48

def allDigits (l : List Char) : Bool := !l.isEmpty && l.all Char.isDigit

def digitsToNat (l : List Char) : Nat :=
  l.foldl (fun acc c => acc * 10 + digitVal c) 0

/-- Split a character list at the first occurrence of `c`; `none` when `c`
does not occur. -/
def splitAtChar (c : Char) : List Char → Option (List Char × List Char)
  | [] => none
  | d :: rest =>
      if d = c then some ([], rest)
      else match splitAtChar c rest with
        | some (a, b) => some (d :: a, b)
        | none => none

/-- Optional leading sign: returns (sign, remainder). -/
def stripSign : List Char → Bool × List Char
  | '-' :: rest => (true, rest)
  | '+' :: rest => (false, rest)
  | l => (false, l)

/-- `int(s)` on an (already stripped) string: optional sign then one or more
decimal digits, otherwise failure (`ValueError`).  Underscore separators and
non-ASCII digits accepted by Python are outside the inputs this program
feeds it and are not modelled. -/
def pyIntOfString (s : String) : Option Int :=
  let (neg, l) := stripSign (pyStrip s).data
  if allDigits l then
    let n : Int := (digitsToNat l : Int)
    some (if neg then -n else n)
  else none

/-- `float(s)` on the decimal literal forms `d+`, `d+.`, `.d+`, `d+.d+` with
optional sign and surrounding whitespace, returned exactly as a scaled
integer `(m, d)` denoting `m / 10^d`; anything else fails (`ValueError`).
Exponent/`inf`/`nan` forms, unused by this program's inputs, are not
modelled.  The exact-decimal reading agrees with the source's IEEE-754
arithmetic on the count magnitudes this program handles. -/
def pyFloatOfString (s : String) : Option (Int × Nat) :=
  let (neg, l) := stripSign (pyStrip s).data
  let val? : Option (Nat × Nat) :=
    match splitAtChar '.' l with
    | none => if allDigits l then some (digitsToNat l, 0) else none
    | some (a, b) =>
        if a.all Char.isDigit ∧ b.all Char.isDigit ∧ !(a.isEmpty && b.isEmpty)
            ∧ !b.contains '.' then
          some (digitsToNat a * 10 ^ b.length + digitsToNat b, b.length)
        else none
  val?.map (fun p => (if neg then -(p.1 : Int) else (p.1 : Int), p.2))

/-- `int(x)` truncation toward zero of the exact value `num / den`. -/
def pyTruncScaled (num : Int) (den : Nat) : Int :=
  if num < 0 then -((num.natAbs / den : Nat) : Int) else ((num.natAbs / den : Nat) : Int)

/-- `int(q)` truncation toward zero of a Python float. -/
def pyTruncQ (q : ℚ) : Int :=
  if 0 ≤ q then ⌊q⌋ else -⌊-q⌋

/-- `int(v)` builtin on a Python value: ints pass through, floats truncate,
strings parse (or raise), everything else raises `TypeError`. -/
def pyIntCoerce : PyVal → Except Unit Int
  | VInt n => Except.ok n
  | VFloat q => Except.ok (pyTruncQ q)
  | VStr s =>
      match pyIntOfString s with
      | some n => Except.ok n
      | none => Except.error ()
  | _ => Except.error ()

/-- The preprocessing `count_str.upper().replace(',', '').strip()` of
`parse_count`. -/
def countPreprocess (s : String) : String :=
  pyStrip (pyDropChar (pyUpper s) ',')

/-- Embedding of `parse_count(count_str)` (parser.py, lines 34-60).  Ints
pass through; strings are uppercased, comma-stripped and stripped; a string
containing `K` (resp. `M`) is parsed as `int(float(s.replace('K','')) *
1000)` — where the `float` call can fail, and that failure is NOT caught by
the source, hence `Except.error`; other strings fall to a guarded `int`
parse defaulting to 0; non-int non-str values give 0. -/
def parse_count (v : PyVal) : Except Unit Int :=
  match v with
  | VInt n => Except.ok n
  | VStr s =>
      let t := countPreprocess s
      if pyContainsChar t 'K' then
        match pyFloatOfString (pyDropChar t 'K') with
        | some md => Except.ok (pyTruncScaled (md.1 * 1000) (10 ^ md.2))
        | none => Except.error ()
      else if pyContainsChar t 'M' then
        match pyFloatOfString (pyDropChar t 'M') with
        | some md => Except.ok (pyTruncScaled (md.1 * 1000000) (10 ^ md.2))
        | none => Except.error ()
      else
        Except.ok ((pyIntOfString t).getD 0)
  | _ => Except.ok 0

/-- Whether a value is a Python `int` (`isinstance(v, int)`). -/
def isIntVal : PyVal → Bool
  | VInt _ => true
  | _ => false

/-- Whether a value is a Python `str` (`isinstance(v, str)`). -/
def isStrVal : PyVal → Bool
  | VStr _ => true
  | _ => false

/-- Whether a value is a Python `dict`. -/
def isDictVal : PyVal → Bool
  | VDict _ => true
  | _ => false

/-- Python `a or b`. -/
def pyOr (a b : PyVal) : PyVal := if pyTruthy a then a else b

/-- Attribute-style `v.get(k)`: raises `AttributeError` unless `v` is a
dict. -/
def pyGet (v : PyVal) (k : PyKey) : Except Unit PyVal :=
  match v with
  | VDict kvs => Except.ok (dictGet kvs k)
  | _ => Except.error ()

/-- Attribute-style `v.get(k, default)`: raises unless `v` is a dict. -/
def pyGetD (v : PyVal) (k : PyKey) (dflt : PyVal) : Except Unit PyVal :=
  match v with
  | VDict kvs => Except.ok (dictGetD kvs k dflt)
  | _ => Except.error ()

/-- Python hashability of the values this parser can feed to `hash` /
dict-key positions: lists and dicts raise `TypeError`, the rest are
hashable. -/
def pyHashable : PyVal → Bool
  | VList _ => false
  | VDict _ => false
  | _ => true

/-- `hash(v)` for a process whose (salted) string-hash function is `h`:
CPython string hashing is salted per process (`PYTHONHASHSEED`), so the
concrete value of `h` is a parameter of every run.  Unhashable values
raise. -/
def pyHash (h : PyVal → Int) (v : PyVal) : Except Unit Int :=
  if pyHashable v then Except.ok (h v) else Except.error ()

/-- Python `==` between hashable (non-container) values: numbers compare
numerically across `int`/`float`, `None` equals `None`, strings compare as
strings, values of unrelated kinds are unequal.  Containers never reach the
key positions this is used for (they are unhashable). -/
def pyEqHashable : PyVal → PyVal → Bool
  | VNone, VNone => true
  | VInt a, VInt b => a == b
  | VInt a, VFloat q => (a : ℚ) == q
  | VFloat q, VInt b => q == (b : ℚ)
  | VFloat a, VFloat b => a == b
  | VStr a, VStr b => a == b
  | _, _ => false

/- ### parser.py : author, reactions, attachments, post extraction -/

/-- `reactions[name] = cnt` on an insertion-ordered association list with
Python dict semantics: an existing equal key keeps its position and gets the
new value, a new key is appended; unhashable keys raise. -/
def assocSet (acc : List (PyVal × Int)) (key : PyVal) (cnt : Int) :
    Except Unit (List (PyVal × Int)) :=
  if pyHashable key then
    Except.ok
      (if acc.any (fun kv => pyEqHashable kv.1 key) then
        acc.map (fun kv => if pyEqHashable kv.1 key then (kv.1, cnt) else kv)
      else acc ++ [(key, cnt)])
  else Except.error ()

/-- Path of the preferred actors list (`extract_author_info`, method 1). -/
def actorsPath : List PyKey :=
  [.s "comet_sections", .s "content", .s "story", .s "actors"]

/-- Path of the owning profile (`extract_author_info`, method 2). -/
def owningProfilePath : List PyKey :=
  [.s "comet_sections", .s "feedback", .s "story", .s "story_ufi_container",
   .s "story", .s "feedback_context", .s "feedback_target_with_context",
   .s "owning_profile"]

/-- Path of the context-layout actors list (`extract_author_info`,
method 3). -/
def contextActorsPath : List PyKey :=
  [.s "comet_sections", .s "context_layout", .s "story", .s "comet_sections",
   .s "actor_photo", .s "story", .s "actors"]

/-- Lines 106-114 of parser.py: name-only fallback then hash-derived id.
`author_name` defaults through the actors path to `'Unknown'`; a falsy
`author_id` is replaced by `f'fb_user_{hash(author_name) % 1000000000}'`
(Python `%` on a positive modulus, i.e. `Int.emod`). -/
def authorFallback (h : PyVal → Int) (story author_id author_name : PyVal) :
    Except Unit (PyVal × PyVal) := do
  let name :=
    if pyTruthy author_name then author_name
    else pyOr (safe_get story (actorsPath ++ [.i 0, .s "name"])) (VStr "Unknown")
  if pyTruthy author_id then
    return (author_id, name)
  else
    let hv ← pyHash h name
    return (VStr ("fb_user_" ++ toString (hv % 1000000000)), name)

/-- Embedding of `extract_author_info(story)` (parser.py, lines 63-114),
parameterized by the process string-hash function `h`.  Each method fires
only on a truthy list (methods 1/3) or truthy value (method 2); a truthy
extracted id returns immediately, otherwise the (possibly falsy) id/name
pair flows on; `.get` on a non-dict actor/profile raises. -/
def extract_author_info (h : PyVal → Int) (story : PyVal) :
    Except Unit (PyVal × PyVal) := do
  let (aid1, aname1) ←
    match safe_get story actorsPath with
    | VList (actor :: _) => do
        let i ← pyGet actor (.s "id")
        let n ← pyGet actor (.s "name")
        Except.ok (i, n)
    | _ => Except.ok (VNone, VNone)
  if pyTruthy aid1 then
    return (aid1, aname1)
  let profile := safe_get story owningProfilePath
  let (aid2, aname2) ←
    if pyTruthy profile then do
      let i ← pyGet profile (.s "id")
      let n ← pyGet profile (.s "name")
      Except.ok (i, n)
    else Except.ok (aid1, aname1)
  if pyTruthy aid2 then
    return (aid2, aname2)
  let (aid3, aname3) ←
    match safe_get story contextActorsPath with
    | VList (actor :: _) => do
        let i ← pyGet actor (.s "id")
        let n ← pyGet actor (.s "name")
        Except.ok (i, n)
    | _ => Except.ok (aid2, aname2)
  if pyTruthy aid3 then
    return (aid3, aname3)
  authorFallback h story aid3 aname3

/-- Path of the UFI feedback object (`extract_reactions`). -/
def ufiFeedbackPath : List PyKey :=
  [.s "comet_sections", .s "feedback", .s "story", .s "story_ufi_container",
   .s "story", .s "feedback_context", .s "feedback_target_with_context",
   .s "comet_ufi_summary_and_actions_renderer", .s "feedback"]

/-- One edge of the reaction breakdown loop (parser.py, lines 139-145):
`edge.get('node', {})`, name from `localized_name or reaction_type`, count
from `reaction_count or i18n_reaction_count`; the pair is stored only when
both are truthy.  `.get` on non-dicts raises and propagates (the loop has no
try/except). -/
def reactionEdgeStep (acc : List (PyVal × Int)) (edge : PyVal) :
    Except Unit (List (PyVal × Int)) :=
  match edge with
  | VDict ek =>
      match dictGetD ek (.s "node") (VDict []) with
      | VDict nk =>
          let name := pyOr (dictGet nk (.s "localized_name"))
                           (dictGet nk (.s "reaction_type"))
          let cnt := pyOr (dictGet ek (.s "reaction_count"))
                          (dictGet ek (.s "i18n_reaction_count"))
          if pyTruthy name ∧ pyTruthy cnt then
            match parse_count cnt with
            | Except.ok c => assocSet acc name c
            | Except.error u => Except.error u
          else Except.ok acc
      | _ => Except.error ()
  | _ => Except.error ()

/-- Embedding of `extract_reactions(story)` (parser.py, lines 117-147).
Result is the insertion-ordered reactions dict.  A truthy `ufi_feedback`
that is not a dict raises on `.get`; a truthy non-list `edges` value makes
the `for` loop raise (cheap iterables such as strings/dicts would raise on
`edge.get` at the first element). -/
def extract_reactions (story : PyVal) : Except Unit (List (PyVal × Int)) :=
  if !pyTruthy (safe_get story ufiFeedbackPath) then Except.ok []
  else
    match safe_get story ufiFeedbackPath with
    | VDict kvs =>
        let total := dictGet kvs (.s "i18n_reaction_count")
        let acc0E : Except Unit (List (PyVal × Int)) :=
          if pyTruthy total then
            match parse_count total with
            | Except.ok c => assocSet [] (VStr "total") c
            | Except.error u => Except.error u
          else Except.ok []
        match acc0E with
        | Except.error u => Except.error u
        | Except.ok acc0 =>
            let topr := safe_get (VDict kvs) [.s "top_reactions", .s "edges"]
            if !pyTruthy topr then Except.ok acc0
            else
              match topr with
              | VList edges => edges.foldlM reactionEdgeStep acc0
              | _ => Except.error ()
    | _ => Except.error ()

/-- One extracted attachment object. -/
structure Att where
  type : PyVal
  id : PyVal
  url : PyVal
  thumbnail : PyVal

/-- Body of the attachment loop (parser.py, lines 155-184): any exception
inside, and any falsy media, skip the entry (`none`). -/
def attachmentOne (att : PyVal) : Option Att :=
  let media := safe_get att [.s "styles", .s "attachment", .s "media"]
  if !pyTruthy media then none
  else
    let ty := if isDictVal media then
        (pyGet media (.s "__typename")).toOption.getD VNone else VNone
    let aid := if isDictVal media then
        (pyGet media (.s "id")).toOption.getD VNone else VNone
    let url0 := safe_get att [.s "styles", .s "attachment", .s "url"]
    let url? : Option PyVal :=
      if pyTruthy url0 then some url0
      else match media with
        | VDict kvs => some (dictGet kvs (.s "url"))
        | _ => none
    match url? with
    | none => none
    | some url =>
        let thumb :=
          pyOr (safe_get media [.s "thumbnailImage", .s "uri"])
               (safe_get media [.s "preferred_story_attachment_image", .s "uri"])
        if pyTruthy url ∨ pyTruthy aid then
          some ⟨ty, aid, url, thumb⟩
        else none

/-- Embedding of `extract_attachments(story)` (parser.py, lines 150-186).
`story.get('attachments', []) or []` then a loop whose body is fully guarded
by `try/except`; iterating a truthy non-iterable number raises, while a
truthy string or dict iterates to elements whose navigation collapses and is
skipped. -/
def extract_attachments (story : PyVal) : Except Unit (List Att) := do
  let satt0 ← pyGetD story (.s "attachments") (VList [])
  match pyOr satt0 (VList []) with
  | VList xs => Except.ok (xs.filterMap attachmentOne)
  | VStr _ => Except.ok []
  | VDict _ => Except.ok []
  | _ => Except.error ()

/-- Path of the canonical story object in a search result node. -/
def storyPath : List PyKey :=
  [.s "rendering_strategy", .s "view_model", .s "click_model", .s "story"]

/-- Primary deep text path. -/
def textPath : List PyKey :=
  [.s "comet_sections", .s "content", .s "story", .s "comet_sections",
   .s "message", .s "story", .s "message", .s "text"]

/-- Primary timestamp path. -/
def timePath1 : List PyKey :=
  [.s "comet_sections", .s "timestamp", .s "story", .s "creation_time"]

/-- Fallback timestamp path. -/
def timePath2 : List PyKey :=
  [.s "comet_sections", .s "context_layout", .s "story", .s "comet_sections",
   .s "metadata", .i 1, .s "story", .s "creation_time"]

/-- Deep comment-count path. -/
def commentCountPath : List PyKey :=
  [.s "comet_sections", .s "feedback", .s "story", .s "story_ufi_container",
   .s "story", .s "feedback_context", .s "feedback_target_with_context",
   .s "comet_ufi_summary_and_actions_renderer", .s "feedback",
   .s "comments_count_summary_renderer", .s "feedback",
   .s "comment_rendering_instance", .s "comments", .s "total_count"]

/-- Deep share-count path. -/
def shareCountPath : List PyKey :=
  [.s "comet_sections", .s "feedback", .s "story", .s "story_ufi_container",
   .s "story", .s "feedback_context", .s "feedback_target_with_context",
   .s "comet_ufi_summary_and_actions_renderer", .s "feedback",
   .s "share_count", .s "count"]

/-- View-count path through the first attachment. -/
def viewCountPath : List PyKey :=
  [.s "attachments", .i 0, .s "styles", .s "attachment", .s "media",
   .s "video_view_count"]

/-- The normalized entity produced by `extract_post_from_node`: the
`post` dict of parser.py with its always-present keys as fields. -/
structure Post where
  id : PyVal
  type : PyVal
  keyword : String
  collected_at : Int
  extraction_method : PyVal
  text : PyVal
  author_id : PyVal
  owner : PyVal
  publish_time : PyVal
  comment_count : Int
  share_count : Int
  view_count : Int
  reactions : List (PyVal × Int)
  attachments : List Att

/-- `int(x) if x else 0` used for the three counters. -/
def coerceCount (v : PyVal) : Except Unit Int :=
  if pyTruthy v then pyIntCoerce v else Except.ok 0

/-- Embedding of `extract_post_from_node(node, keyword)` (parser.py, lines
189-265), parameterized by the process hash function `h` and the capture
time `now` (`int(time.time())`).  A falsy story short-circuits to the reject
result `Except.ok none`; afterwards any raising sub-extraction propagates as
`Except.error`. -/
def extract_post_from_node (h : PyVal → Int) (now : Int) (node : PyVal)
    (keyword : String) : Except Unit (Option Post) := do
  let story := safe_get node storyPath
  if !pyTruthy story then
    return none
  let pid ← pyGet story (.s "id")
  let ptype ← pyGetD story (.s "__typename") (VStr "Story")
  let text := pyOr (pyOr (safe_get story textPath)
                         (safe_get story [.s "message", .s "text"]))
                   (VStr "")
  let author ← extract_author_info h story
  let publish := pyOr (pyOr (safe_get story timePath1)
                            (safe_get story timePath2))
                      (VInt 0)
  let cc ← coerceCount (safe_get story commentCountPath)
  let sc ← coerceCount (safe_get story shareCountPath)
  let vc ← coerceCount (safe_get story viewCountPath)
  let reactions ← extract_reactions story
  let atts ← extract_attachments story
  return some
    { id := pid, type := ptype, keyword := keyword, collected_at := now,
      extraction_method := VStr "graphql", text := text,
      author_id := author.1, owner := author.2, publish_time := publish,
      comment_count := cc, share_count := sc, view_count := vc,
      reactions := reactions, attachments := atts }

/-- Hypothesis predicate: a value found at a metric path either is falsy
(the extractor then defaults to 0) or coerces through `int()` to a
non-negative integer. -/
def countFieldOk (v : PyVal) : Bool :=
  !pyTruthy v ||
    (match pyIntCoerce v with
     | Except.ok n => decide (0 ≤ n)
     | Except.error _ => false)

/-- Hypothesis predicate: a reaction count value parses (via `parse_count`)
to a non-negative integer. -/
def parseNonneg (v : PyVal) : Bool :=
  match parse_count v with
  | Except.ok n => decide (0 ≤ n)
  | Except.error _ => false

/-- Hypothesis predicate on one breakdown edge: whenever its name and count
are truthy (so the pair would be stored), the count parses non-negative.
Shapes on which the extraction loop would raise are vacuously fine. -/
def edgeOk (edge : PyVal) : Bool :=
  match edge with
  | VDict ek =>
      match dictGetD ek (.s "node") (VDict []) with
      | VDict nk =>
          let name := pyOr (dictGet nk (.s "localized_name"))
                           (dictGet nk (.s "reaction_type"))
          let cnt := pyOr (dictGet ek (.s "reaction_count"))
                          (dictGet ek (.s "i18n_reaction_count"))
          !(pyTruthy name && pyTruthy cnt) || parseNonneg cnt
      | _ => true
  | _ => true

/-- Hypothesis predicate on a story: every reaction count value the
extraction would read (the total and each stored breakdown count) parses
non-negative. -/
def reactionSourcesOk (story : PyVal) : Bool :=
  let ufi := safe_get story ufiFeedbackPath
  if !pyTruthy ufi then true
  else
    match ufi with
    | VDict kvs =>
        (!pyTruthy (dictGet kvs (.s "i18n_reaction_count")) ||
            parseNonneg (dictGet kvs (.s "i18n_reaction_count"))) &&
        (match safe_get (VDict kvs) [.s "top_reactions", .s "edges"] with
         | VList edges => edges.all edgeOk
         | _ => true)
    | _ => true

/- ### database.py : classification, transformation, ingestion, trends -/

/-- Substring containment `pat in hay` on character lists (Python `in` for
strings); the empty pattern is contained everywhere. -/
def containsSub (hay pat : List Char) : Bool :=
  match hay with
  | [] => pat.isEmpty
  | _ :: rest => pat.isPrefixOf hay || containsSub rest pat

/-- The ordered category table of `classify_category` (database.py, lines
73-84). -/
def categoriesTable : List (String × List String) :=
  [("refrigerator", ["tủ lạnh", "tu lanh", "tủ đông", "refrigerator", "fridge"]),
   ("rice_cooker", ["nồi cơm điện", "noi com dien", "rice cooker"]),
   ("washing_machine", ["máy giặt", "may giat", "washing machine"]),
   ("tv", ["tivi", "tv", "ti vi", "smart tv"]),
   ("air_fryer", ["nồi chiên không dầu", "air fryer", "lò nướng"]),
   ("stove", ["bếp ga", "bep ga", "bếp từ", "bep tu"]),
   ("vacuum", ["máy hút bụi", "may hut bui", "vacuum"]),
   ("fan", ["quạt", "quat", "fan"]),
   ("kettle", ["ấm siêu tốc", "am sieu toc", "ấm đun"]),
   ("iron", ["bàn ủi", "ban ui", "iron"])]

/-- The loop of `classify_category` over already-lowercased text and
keyword: first category (in declaration order) one of whose keywords occurs
in the search keyword or in the text wins; otherwise `'general'`. -/
def classifyCore (textL keywordL : String) : String :=
  match categoriesTable.find? (fun ckw =>
      ckw.2.any (fun kw => containsSub keywordL.data kw.data) ||
      ckw.2.any (fun kw => containsSub textL.data kw.data)) with
  | some ckw => ckw.1
  | none => "general"

/-- Embedding of `classify_category(text, keyword)` (database.py, lines
59-92).  `text.lower()` raises `AttributeError` when the extracted text is
not a string (possible, since the extractor's `text or ''` lets truthy
non-strings through). -/
def classify_category (text : PyVal) (keyword : String) : Except Unit String :=
  match text with
  | VStr s => Except.ok (classifyCore (pyLower s) (pyLower keyword))
  | _ => Except.error ()

/-- `str(v)` as used by the `f"{platform}_{native_id}"` record-id
construction: exact for the string / int / `None` ids this pipeline
produces; container and float reprs are abstracted to fixed tags (such ids
never occur as GraphQL post ids). -/
def pyStrOf : PyVal → String
  | VStr s => s
  | VInt n => toString n
  | VNone => "None"
  | VFloat _ => "<float>"
  | VList _ => "<list>"
  | VDict _ => "<dict>"

/-- The compound master key `post_id = f"facebook_{native_id}"`. -/
def recordId (idv : PyVal) : String := "facebook_" ++ pyStrOf idv

/-- The immutable platform-native metadata blob (`platform_data`). -/
structure PlatformData where
  native_post_id : PyVal
  native_author_id : PyVal
  post_type : PyVal
  extraction_method : PyVal

/-- One master-table document (`posts` collection). -/
structure PostDoc where
  post_id : String
  author_name : PyVal
  author_id : PyVal
  content : PyVal
  media_urls : List PyVal
  created_at : Option Int
  matched_keywords : List String
  category : String
  platform : String
  scraped_at : Int
  crawl_session_id : String
  platform_data : PlatformData

/-- One snapshot document (`metrics_snapshot` collection). -/
structure MetricsDoc where
  post_id : String
  likes : Int
  comments : Int
  shares : Int
  views : Int
  reaction_breakdown : List (PyVal × Int)
  snapshot_time : Int
  crawl_session_id : String

/-- `datetime.fromtimestamp(publish_time)` guarded by `if publish_time:`
and a bare `except: pass`: truthy numeric values become a creation time,
truthy non-numbers raise `TypeError` which the bare except swallows,
leaving `None`.  Timestamps are modelled in unix seconds; the (far out of
range) `OverflowError` case is not modelled. -/
def mkCreatedAt (v : PyVal) : Option Int :=
  if pyTruthy v then
    match v with
    | VInt n => some n
    | VFloat q => some (pyTruncQ q)
    | _ => none
  else none

/-- The media-url loop of `transform_post`: `att.get('url') or
att.get('thumbnail')`, kept when truthy. -/
def mediaUrlsOf (atts : List Att) : List PyVal :=
  atts.filterMap (fun a =>
    let u := pyOr a.url a.thumbnail
    if pyTruthy u then some u else none)

/-- `reactions.get('total', 0)` under Python key equality. -/
def lookupTotal (rs : List (PyVal × Int)) : Int :=
  match rs.find? (fun kv => pyEqHashable kv.1 (VStr "total")) with
  | some kv => kv.2
  | none => 0

/-- Lines 128-132 of database.py: a falsy `author_id` is replaced by
`f"facebook_user_{hash(author_name) % 1000000000}"` (raising on an
unhashable name). -/
def mkAuthorId (h : PyVal → Int) (author_id author_name : PyVal) :
    Except Unit PyVal :=
  if pyTruthy author_id then Except.ok author_id
  else do
    let hv ← pyHash h author_name
    Except.ok (VStr ("facebook_user_" ++ toString (hv % 1000000000)))

/-- Embedding of `transform_post(raw_post, keyword, session_id)`
(database.py, lines 95-168), parameterized by the process hash function `h`
and the wall-clock `now` (`datetime.now`).  It can raise: via
`classify_category` on a non-string text, or via `hash` on an unhashable
author name when `author_id` is falsy. -/
def transform_post (h : PyVal → Int) (raw : Post) (keyword : String)
    (session_id : String) (now : Int) : Except Unit (PostDoc × MetricsDoc) := do
  let created_at := mkCreatedAt raw.publish_time
  let media_urls := mediaUrlsOf raw.attachments
  let post_id := recordId raw.id
  let author_name := raw.owner
  let author_id ← mkAuthorId h raw.author_id author_name
  let category ← classify_category raw.text keyword
  let post_doc : PostDoc :=
    { post_id := post_id, author_name := author_name, author_id := author_id,
      content := raw.text, media_urls := media_urls, created_at := created_at,
      matched_keywords := if keyword = "" then [] else [keyword],
      category := category, platform := "facebook", scraped_at := now,
      crawl_session_id := session_id,
      platform_data :=
        { native_post_id := raw.id, native_author_id := raw.author_id,
          post_type := raw.type, extraction_method := raw.extraction_method } }
  let metrics_doc : MetricsDoc :=
    { post_id := post_id, likes := lookupTotal raw.reactions,
      comments := raw.comment_count, shares := raw.share_count,
      views := raw.view_count,
      reaction_breakdown := raw.reactions.filter
        (fun kv => !pyEqHashable kv.1 (VStr "total")),
      snapshot_time := now, crawl_session_id := session_id }
  return (post_doc, metrics_doc)

/-- The per-batch session token
`datetime.now(timezone.utc).strftime('%Y-%m-%dT%H:%M')`, modelled up to the
injective renaming of minute buckets to strings. -/
def sessionIdOf (now : Int) : String := "m" ++ toString (Int.fdiv now 60)

/-- The two per-platform logical tables. -/
structure DB where
  posts : List PostDoc
  metrics : List MetricsDoc

def emptyDB : DB := { posts := [], metrics := [] }

/-- The statistics dictionary returned by `insert_posts`. -/
structure InsertStats where
  posts_inserted : Nat
  posts_updated : Nat
  metrics_inserted : Nat
  errors : Nat

/-- The document-building loop of `insert_posts` (database.py, lines
191-227): entities with a falsy `id` are skipped (with only a log line —
nothing is counted); the rest are transformed.  An exception inside
`transform_post` propagates, and since the loop runs before any write,
nothing is persisted in that case. -/
def buildDocs (h : PyVal → Int) (scraped : List Post)
    (keyword session_id : String) (now : Int) :
    Except Unit (List (PostDoc × MetricsDoc)) :=
  match scraped with
  | [] => Except.ok []
  | e :: rest =>
      if !pyTruthy e.id then buildDocs h rest keyword session_id now
      else do
        let t ← transform_post h e keyword session_id now
        let r ← buildDocs h rest keyword session_id now
        Except.ok (t :: r)

/-- `$addToSet` on an array modelled as an insertion-ordered set. -/
def applyAddToSet (l : List String) (k : String) : List String :=
  if l.contains k then l else l ++ [k]

/-- The `$set` / `$addToSet` part of the upsert applied to an existing
master document: only `scraped_at`, `crawl_session_id` and
`matched_keywords` change. -/
def updateExisting (p : PostDoc) (keyword session_id : String) (now : Int) :
    PostDoc :=
  { p with scraped_at := now, crawl_session_id := session_id,
           matched_keywords := applyAddToSet p.matched_keywords keyword }

/-- `UpdateOne` matches a single document: update the first (under the
unique index, only) match. -/
def updateFirst (posts : List PostDoc) (pid : String)
    (keyword session_id : String) (now : Int) : List PostDoc :=
  match posts with
  | [] => []
  | p :: rest =>
      if p.post_id == pid then updateExisting p keyword session_id now :: rest
      else p :: updateFirst rest pid keyword session_id now

/-- The document created by an upsert miss: the filter's `post_id`, all
`$setOnInsert` fields (already present in `d`), the `$set` fields, and
`matched_keywords` seeded by `$addToSet` with exactly `[keyword]`. -/
def insertedDoc (d : PostDoc) (keyword session_id : String) (now : Int) :
    PostDoc :=
  { d with matched_keywords := [keyword], scraped_at := now,
           crawl_session_id := session_id }

/-- `bulk_write` of the upsert list over the master table, returning the
new table with `(upserted_count, modified_count)`.  (Mongo would not count
a matched write that changes nothing as modified; no claim depends on
`posts_updated`.) -/
def applyOps (posts : List PostDoc) (docs : List PostDoc)
    (keyword session_id : String) (now : Int) : List PostDoc × Nat × Nat :=
  match docs with
  | [] => (posts, 0, 0)
  | d :: rest =>
      if posts.any (fun p => p.post_id == d.post_id) then
        let r := applyOps (updateFirst posts d.post_id keyword session_id now)
          rest keyword session_id now
        (r.1, r.2.1, r.2.2 + 1)
      else
        let r := applyOps (posts ++ [insertedDoc d keyword session_id now])
          rest keyword session_id now
        (r.1, r.2.1 + 1, r.2.2)

/-- Embedding of `insert_posts(scraped_posts, keyword)` (database.py, lines
171-254) for one single-writer run: build the operation and snapshot lists
(skipping falsy ids), apply the master upserts, then append every snapshot.
`errors` counts per-entity store write failures (`BulkWriteError`), of which
a sequential run free of concurrent writers has none — so it is 0 here. -/
def insert_posts (h : PyVal → Int) (db : DB) (scraped : List Post)
    (keyword : String) (now : Int) : Except Unit (DB × InsertStats) := do
  let session_id := sessionIdOf now
  let docs ← buildDocs h scraped keyword session_id now
  let r := applyOps db.posts (docs.map Prod.fst) keyword session_id now
  let mdocs := docs.map Prod.snd
  return ({ posts := r.1, metrics := db.metrics ++ mdocs },
          { posts_inserted := r.2.1, posts_updated := r.2.2,
            metrics_inserted := mdocs.length, errors := 0 })

/-- One row of the aggregation output of `get_trending_posts`: the master
document joined with `latest_metrics` and the added `total_engagement`. -/
structure TrendRow where
  post : PostDoc
  latest_metrics : MetricsDoc
  total_engagement : Int

/-- The snapshot selected by the `$lookup` sub-pipeline `[{'$match':
{'$expr': {'$eq': ['$post_id', '$post_id']}}}, {'$sort': {'snapshot_time':
-1}}, {'$limit': 1}]`.  The `let` variable `post_id` is never referenced
(that would be `$$post_id`): `'$post_id'` on both sides is the snapshot's
own field, the match is a tautology, and the sub-pipeline returns the single
globally latest snapshot of the whole collection, independent of the outer
master document. -/
def globalLatestSnapshot (ms : List MetricsDoc) : Option MetricsDoc :=
  ms.foldl (fun acc m =>
    match acc with
    | none => some m
    | some b => if b.snapshot_time < m.snapshot_time then some m else some b)
    none

/-- Insertion sort, descending in `total_engagement` (`{'$sort':
{'total_engagement': -1}}`). -/
def sortByEngagement (rows : List TrendRow) : List TrendRow :=
  rows.foldr (fun r acc => insertRow r acc) []
where
  insertRow (r : TrendRow) : List TrendRow → List TrendRow
    | [] => [r]
    | x :: xs =>
        if x.total_engagement ≤ r.total_engagement then r :: x :: xs
        else x :: insertRow r xs

/-- Embedding of `get_trending_posts(category, hours, min_engagement)`
(database.py, lines 257-309): match masters by `created_at` within the
window (a `None` creation time never satisfies `$gte`) and by category when
given; join every matched master against the single globally latest snapshot
(see `globalLatestSnapshot` — the `$lookup` never constrains on the outer
id); `$unwind` drops everything when the snapshot table is empty; add
`total_engagement = likes + comments + shares`; keep rows reaching
`min_engagement`; sort descending; `$limit` is hardcoded to 20 (the function
takes no limit argument). -/
def get_trending_posts (db : DB) (category : Option String) (hours : Int)
    (min_engagement : Int) (now : Int) : List TrendRow :=
  let time_threshold := now - hours * 3600
  let matched := db.posts.filter (fun p =>
    (match p.created_at with
     | some t => time_threshold ≤ t
     | none => false) &&
    (match category with
     | some c => p.category == c
     | none => true))
  match globalLatestSnapshot db.metrics with
  | none => []
  | some m =>
      let rows := matched.map (fun p =>
        { post := p, latest_metrics := m,
          total_engagement := m.likes + m.comments + m.shares : TrendRow })
      (sortByEngagement
        (rows.filter (fun r => min_engagement ≤ r.total_engagement))).take 20

/-- The join the spec describes (spec.md §4.7): each master against its own
most recent snapshot — `snapshot_time` descending, limit 1, among the
snapshots sharing the master's `record_id`.  Spec-side definition, for
comparison with the code's join. -/
def specOwnLatest (ms : List MetricsDoc) (pid : String) : Option MetricsDoc :=
  globalLatestSnapshot (ms.filter (fun m => m.post_id == pid))

/-- `total_engagement` of a master's own latest snapshot, per the spec's
join. -/
def specOwnLatestTotal (db : DB) (pid : String) : Option Int :=
  (specOwnLatest db.metrics pid).map (fun m => m.likes + m.comments + m.shares)

/-- Point lookup of a master document by `post_id`. -/
def findPost (db : DB) (pid : String) : Option PostDoc :=
  db.posts.find? (fun p => p.post_id == pid)

/-- `N` successive ingestion calls of the same batch (call `k` runs at time
`k`, so each call has its own session), starting from the empty store. -/
def ingestIter (h : PyVal → Int) (batch : List Post) (kw : String) :
    Nat → Except Unit DB
  | 0 => Except.ok emptyDB
  | n + 1 => do
      let db ← ingestIter h batch kw n
      let r ← insert_posts h db batch kw (n : Int)
      Except.ok r.1

/- ### Concrete inputs used by the claim instances -/

/-- Build the nested dictionaries realizing one path down to a leaf. -/
def nest : List PyKey → PyVal → PyVal
  | [], v => v
  | k :: rest, v => VDict [(k, nest rest v)]

/-- A story object holding an id and one value at the deep comment-count
path. -/
def mkStoryWithCount (v : PyVal) : PyVal :=
  VDict [(.s "id", VStr "p1"), (.s "comet_sections", nest (commentCountPath.drop 1) v)]

/-- A full search-result node around `mkStoryWithCount`. -/
def mkNodeWithCount (v : PyVal) : PyVal := nest storyPath (mkStoryWithCount v)

/-- A process hash function (all names hash to 0). -/
def hash0 : PyVal → Int := fun _ => 0

/-- A process hash function of a differently salted process (all names hash
to 1). -/
def hash1 : PyVal → Int := fun _ => 1

/-- Projection: the extracted comment count, when extraction produced an
entity. -/
def getCommentCount : Except Unit (Option Post) → Option Int
  | Except.ok (some p) => some p.comment_count
  | _ => none

/-- Projection: the fallback author id, when author extraction succeeded
with a string id. -/
def fallbackIdOf : Except Unit (PyVal × PyVal) → Option String
  | Except.ok (VStr s, _) => some s
  | _ => none

/-- A normalized entity with the given native id and text, as the extractor
would produce it. -/
def mkEntity (idv : PyVal) (text : String) : Post :=
  { id := idv, type := VStr "Story", keyword := "k", collected_at := 0,
    extraction_method := VStr "graphql", text := VStr text,
    author_id := VStr "a1", owner := VStr "Alice", publish_time := VInt 100,
    comment_count := 1, share_count := 2, view_count := 3,
    reactions := [(VStr "total", 7)], attachments := [] }

/-- Projection of an ingestion result to the database state (`emptyDB` on
the raising branch, which the concrete instances never take). -/
def dbOfD : Except Unit (DB × InsertStats) → DB
  | Except.ok r => r.1
  | Except.error _ => emptyDB

/-- Projection of an iterated-ingestion result to the database state. -/
def dbOfE : Except Unit DB → DB
  | Except.ok d => d
  | Except.error _ => emptyDB

/-- Projection of an ingestion result to its statistics. -/
def statsOfD : Except Unit (DB × InsertStats) → InsertStats
  | Except.ok r => r.2
  | Except.error _ => ⟨0, 0, 0, 0⟩

/-- A placeholder master document (projection fallback only). -/
def emptyPostDoc : PostDoc :=
  { post_id := "", author_name := VNone, author_id := VNone, content := VNone,
    media_urls := [], created_at := none, matched_keywords := [],
    category := "", platform := "", scraped_at := 0, crawl_session_id := "",
    platform_data := ⟨VNone, VNone, VNone, VNone⟩ }

/-- A placeholder snapshot document (projection fallback only). -/
def emptyMetricsDoc : MetricsDoc :=
  { post_id := "", likes := 0, comments := 0, shares := 0, views := 0,
    reaction_breakdown := [], snapshot_time := 0, crawl_session_id := "" }

/-- Projection of a transformation result to its master document. -/
def pdOf : Except Unit (PostDoc × MetricsDoc) → PostDoc
  | Except.ok t => t.1
  | Except.error _ => emptyPostDoc

/-- Projection of a transformation result to its snapshot document. -/
def mdOf : Except Unit (PostDoc × MetricsDoc) → MetricsDoc
  | Except.ok t => t.2
  | Except.error _ => emptyMetricsDoc

/-- The three-entity batch of the spec's error-handling scenario: exactly
the middle entity lacks a native id. -/
def batch3 : List Post :=
  [mkEntity (VStr "p1") "a", mkEntity VNone "b", mkEntity (VStr "p3") "c"]

/-- A stored master document for the trend scenario. -/
def trendPost (pid : String) : PostDoc :=
  { post_id := pid, author_name := VStr "A", author_id := VStr "a",
    content := VStr "t", media_urls := [], created_at := some 0,
    matched_keywords := ["k"], category := "general", platform := "facebook",
    scraped_at := 0, crawl_session_id := "m0",
    platform_data := ⟨VStr "p", VStr "a", VNone, VNone⟩ }

/-- A stored snapshot for the trend scenario. -/
def trendSnap (pid : String) (likes t : Int) : MetricsDoc :=
  { post_id := pid, likes := likes, comments := 0, shares := 0, views := 0,
    reaction_breakdown := [], snapshot_time := t, crawl_session_id := "m0" }

/-- The spec's trend scenario state: masters A and B both created inside the
window, A's only snapshot has engagement 50 (at time 1), B's has engagement
3 (at the later time 2). -/
def trendDB : DB :=
  { posts := [trendPost "facebook_a", trendPost "facebook_b"],
    metrics := [trendSnap "facebook_a" 50 1, trendSnap "facebook_b" 3 2] }

/- ### Helper lemmas -/

@[simp] theorem exceptBind_ok {α β : Type} (a : α) (f : α → Except Unit β) :
    (Except.ok a : Except Unit α) >>= f = f a := rfl

@[simp] theorem exceptBind_err {α β : Type} (u : Unit) (f : α → Except Unit β) :
    (Except.error u : Except Unit α) >>= f = Except.error u := rfl

@[simp] theorem exceptPure {α : Type} (a : α) :
    (pure a : Except Unit α) = Except.ok a := rfl

theorem buildDocs_length (h : PyVal → Int) (batch : List Post)
    (kw sess : String) (now : Int) (docs : List (PostDoc × MetricsDoc))
    (hb : buildDocs h batch kw sess now = Except.ok docs) :
    docs.length = (batch.filter (fun e => pyTruthy e.id)).length := by
  induction batch generalizing docs with
  | nil =>
      simp [buildDocs] at hb
      simp [← hb]
  | cons e rest ih =>
      cases he : pyTruthy e.id with
      | false =>
          simp [buildDocs, he] at hb
          simp [List.filter, he, ih docs hb]
      | true =>
          rw [buildDocs] at hb
          simp only [he, Bool.not_true, Bool.false_eq_true, if_false] at hb
          cases ht : transform_post h e kw sess now with
          | error u => rw [ht] at hb; simp at hb
          | ok t =>
              rw [ht] at hb
              cases hr : buildDocs h rest kw sess now with
              | error u => rw [hr] at hb; simp at hb
              | ok r =>
                  rw [hr] at hb
                  simp at hb
                  simp [← hb, List.filter, he, ih r hr]

theorem updateFirst_length (posts : List PostDoc) (pid kw sess : String)
    (now : Int) : (updateFirst posts pid kw sess now).length = posts.length := by
  induction posts with
  | nil => rfl
  | cons p rest ih =>
      rw [updateFirst]
      split <;> simp [ih]

theorem applyOps_posts_length (docs posts : List PostDoc) (kw sess : String)
    (now : Int) :
    (applyOps posts docs kw sess now).1.length ≤ posts.length + docs.length := by
  induction docs generalizing posts with
  | nil => simp [applyOps]
  | cons d rest ih =>
      rw [applyOps]
      split
      · have h1 := ih (updateFirst posts d.post_id kw sess now)
        rw [updateFirst_length] at h1
        simpa using Nat.le_trans h1 (by omega)
      · have h1 := ih (posts ++ [insertedDoc d kw sess now])
        simp at h1
        simpa using Nat.le_trans h1 (by omega)

theorem transform_post_post_id (h : PyVal → Int) (raw : Post)
    (kw sess : String) (now : Int) (t : PostDoc × MetricsDoc)
    (ht : transform_post h raw kw sess now = Except.ok t) :
    t.1.post_id = recordId raw.id ∧ t.2.post_id = recordId raw.id := by
  rw [transform_post] at ht
  cases ha : mkAuthorId h raw.author_id raw.owner with
  | error u => rw [ha] at ht; simp at ht
  | ok aid =>
      rw [ha] at ht
      cases hc : classify_category raw.text kw with
      | error u => rw [hc] at ht; simp at ht
      | ok cat =>
          rw [hc] at ht
          simp at ht
          rw [← ht]
          exact ⟨rfl, rfl⟩

theorem updateFirst_append_fresh (l : List PostDoc) (d : PostDoc)
    (pid kw sess : String) (now : Int) (hfresh : ∀ p ∈ l, p.post_id ≠ pid)
    (hd : d.post_id = pid) :
    updateFirst (l ++ [d]) pid kw sess now
      = l ++ [updateExisting d kw sess now] := by
  induction l with
  | nil => simp [updateFirst, hd]
  | cons p rest ih =>
      have hp : (p.post_id == pid) = false := by
        simp only [beq_eq_false_iff_ne]
        exact hfresh p (List.mem_cons_self p rest)
      simp only [List.cons_append, updateFirst, hp, Bool.false_eq_true,
        if_false, List.cons.injEq, true_and]
      exact ih (fun q hq => hfresh q (List.mem_cons_of_mem p hq))

theorem find_append_fresh (l : List PostDoc) (d : PostDoc) (pid : String)
    (hfresh : ∀ p ∈ l, p.post_id ≠ pid) (hd : d.post_id = pid) :
    (l ++ [d]).find? (fun p => p.post_id == pid) = some d := by
  induction l with
  | nil => simp [List.find?, hd]
  | cons p rest ih =>
      have hp : (p.post_id == pid) = false := by
        simp only [beq_eq_false_iff_ne]
        exact hfresh p (List.mem_cons_self p rest)
      simp only [List.cons_append, List.find?, hp]
      exact ih (fun q hq => hfresh q (List.mem_cons_of_mem p hq))

theorem buildDocs_any_fst (h : PyVal → Int) (batch : List Post)
    (kw sess : String) (now : Int) (docs : List (PostDoc × MetricsDoc))
    (r : String) (hall : ∀ e ∈ batch, pyTruthy e.id = true)
    (hb : buildDocs h batch kw sess now = Except.ok docs) :
    (docs.map Prod.fst).any (fun d => d.post_id == r)
      = batch.any (fun e => recordId e.id == r) := by
  induction batch generalizing docs with
  | nil =>
      simp [buildDocs] at hb
      subst hb
      rfl
  | cons e rest ih =>
      have he : pyTruthy e.id = true := hall e (List.mem_cons_self e rest)
      rw [buildDocs] at hb
      simp only [he, Bool.not_true, Bool.false_eq_true, if_false] at hb
      cases ht : transform_post h e kw sess now with
      | error u => rw [ht] at hb; simp at hb
      | ok t =>
          rw [ht] at hb
          cases hr : buildDocs h rest kw sess now with
          | error u => rw [hr] at hb; simp at hb
          | ok rdocs =>
              rw [hr] at hb
              simp at hb
              have hids := transform_post_post_id h e kw sess now t ht
              have ihh := ih rdocs
                (fun x hx => hall x (List.mem_cons_of_mem e hx)) hr
              rw [← hb]
              simp [List.any_cons, hids.1, ihh]

theorem buildDocs_countP_snd (h : PyVal → Int) (batch : List Post)
    (kw sess : String) (now : Int) (docs : List (PostDoc × MetricsDoc))
    (r : String) (hall : ∀ e ∈ batch, pyTruthy e.id = true)
    (hb : buildDocs h batch kw sess now = Except.ok docs) :
    (docs.map Prod.snd).countP (fun m => m.post_id == r)
      = batch.countP (fun e => recordId e.id == r) := by
  induction batch generalizing docs with
  | nil =>
      simp [buildDocs] at hb
      subst hb
      rfl
  | cons e rest ih =>
      have he : pyTruthy e.id = true := hall e (List.mem_cons_self e rest)
      rw [buildDocs] at hb
      simp only [he, Bool.not_true, Bool.false_eq_true, if_false] at hb
      cases ht : transform_post h e kw sess now with
      | error u => rw [ht] at hb; simp at hb
      | ok t =>
          rw [ht] at hb
          cases hr : buildDocs h rest kw sess now with
          | error u => rw [hr] at hb; simp at hb
          | ok rdocs =>
              rw [hr] at hb
              simp at hb
              have hids := transform_post_post_id h e kw sess now t ht
              have ihh := ih rdocs
                (fun x hx => hall x (List.mem_cons_of_mem e hx)) hr
              rw [← hb]
              simp [List.countP_cons, hids.2, ihh]

theorem updateFirst_countP (posts : List PostDoc) (pid kw sess : String)
    (now : Int) (r : String) :
    (updateFirst posts pid kw sess now).countP (fun p => p.post_id == r)
      = posts.countP (fun p => p.post_id == r) := by
  induction posts with
  | nil => rfl
  | cons p rest ih =>
      rw [updateFirst]
      split
      · simp only [List.countP_cons]
        rfl
      · simp only [List.countP_cons, ih]

theorem applyOps_countP (docs posts : List PostDoc) (kw sess : String)
    (now : Int) (r : String)
    (hle : posts.countP (fun p => p.post_id == r) ≤ 1) :
    (applyOps posts docs kw sess now).1.countP (fun p => p.post_id == r)
      = if posts.countP (fun p => p.post_id == r) = 1
           ∨ docs.any (fun d => d.post_id == r) then 1 else 0 := by
  induction docs generalizing posts with
  | nil =>
      have hred : (applyOps posts [] kw sess now).1 = posts := rfl
      rw [hred]
      simp only [List.any_nil, Bool.false_eq_true, or_false]
      split
      · next hone => exact hone
      · next hne => omega
  | cons d rest ih =>
      rw [applyOps]
      split
      · rename_i hany
        have hcnt := updateFirst_countP posts d.post_id kw sess now r
        have step := ih (updateFirst posts d.post_id kw sess now)
          (by rw [hcnt]; exact hle)
        rw [step, hcnt]
        by_cases hd : (d.post_id == r) = true
        · have hone : posts.countP (fun p => p.post_id == r) = 1 := by
            have hex := List.any_eq_true.mp hany
            obtain ⟨p, hp, hpe⟩ := hex
            have : 0 < posts.countP (fun p => p.post_id == r) := by
              rw [List.countP_pos_iff]
              refine ⟨p, hp, ?_⟩
              have h1 : p.post_id = d.post_id := by simpa using hpe
              have h2 : d.post_id = r := by simpa using hd
              simp [h1, h2]
            omega
          simp [hone]
        · simp only [List.any_cons, hd, Bool.false_or]
      · rename_i hany
        have hgrow : (posts ++ [insertedDoc d kw sess now]).countP
            (fun p => p.post_id == r)
            = posts.countP (fun p => p.post_id == r)
              + if (d.post_id == r) = true then 1 else 0 := by
          rw [List.countP_append]
          congr 1
          simp only [List.countP_cons, List.countP_nil]
          have : (insertedDoc d kw sess now).post_id = d.post_id := rfl
          simp [this]
        by_cases hd : (d.post_id == r) = true
        · have hzero : posts.countP (fun p => p.post_id == r) = 0 := by
            by_contra hnz
            have hpos : 0 < posts.countP (fun p => p.post_id == r) := by omega
            rw [List.countP_pos_iff] at hpos
            obtain ⟨p, hp, hpe⟩ := hpos
            have : posts.any (fun p => p.post_id == d.post_id) = true := by
              rw [List.any_eq_true]
              refine ⟨p, hp, ?_⟩
              have h1 : p.post_id = r := by simpa using hpe
              have h2 : d.post_id = r := by simpa using hd
              simp [h1, h2]
            simp [this] at hany
          have step := ih (posts ++ [insertedDoc d kw sess now])
            (by rw [hgrow, hzero]; simp [hd])
          rw [step, hgrow, hzero, hd]
          simp [List.any_cons, hd]
        · have step := ih (posts ++ [insertedDoc d kw sess now])
            (by rw [hgrow]; simp [hd]; exact hle)
          rw [step, hgrow]
          simp [List.any_cons, hd]

theorem insert_posts_countP (h : PyVal → Int) (db : DB) (batch : List Post)
    (kw : String) (now : Int) (db2 : DB) (st : InsertStats) (r : String)
    (hall : ∀ e ∈ batch, pyTruthy e.id = true)
    (hins : insert_posts h db batch kw now = Except.ok (db2, st))
    (hle : db.posts.countP (fun p => p.post_id == r) ≤ 1) :
    db2.posts.countP (fun p => p.post_id == r)
      = (if db.posts.countP (fun p => p.post_id == r) = 1
            ∨ batch.any (fun e => recordId e.id == r) then 1 else 0)
  ∧ db2.metrics.countP (fun m => m.post_id == r)
      = db.metrics.countP (fun m => m.post_id == r)
        + batch.countP (fun e => recordId e.id == r) := by
  cases hb : buildDocs h batch kw (sessionIdOf now) now with
  | error u => rw [insert_posts, hb] at hins; simp at hins
  | ok docs =>
      rw [insert_posts, hb] at hins
      simp only [exceptBind_ok, exceptPure, Except.ok.injEq,
        Prod.mk.injEq] at hins
      obtain ⟨hdb, hst⟩ := hins
      constructor
      · have hany := buildDocs_any_fst h batch kw (sessionIdOf now) now docs r
          hall hb
        rw [← hdb]
        have := applyOps_countP (docs.map Prod.fst) db.posts kw
          (sessionIdOf now) now r hle
        rw [this, hany]
      · have hcnt := buildDocs_countP_snd h batch kw (sessionIdOf now) now
          docs r hall hb
        rw [← hdb]
        simp only [List.countP_append]
        rw [hcnt]

theorem coerceCount_nonneg (v : PyVal) (n : Int)
    (hc : coerceCount v = Except.ok n) (hok : countFieldOk v = true) :
    0 ≤ n := by
  rw [coerceCount] at hc
  rw [countFieldOk] at hok
  by_cases ht : pyTruthy v = true
  · simp only [ht, if_true] at hc
    simp only [ht, Bool.not_true, Bool.false_or] at hok
    rw [hc] at hok
    simpa using hok
  · rw [if_neg ht] at hc
    simp only [Except.ok.injEq] at hc
    omega

theorem assocSet_nonneg (acc : List (PyVal × Int)) (key : PyVal) (c : Int)
    (acc2 : List (PyVal × Int)) (hs : assocSet acc key c = Except.ok acc2)
    (hacc : ∀ kv ∈ acc, 0 ≤ kv.2) (hc : 0 ≤ c) : ∀ kv ∈ acc2, 0 ≤ kv.2 := by
  rw [assocSet] at hs
  by_cases hh : pyHashable key = true
  · rw [if_pos hh] at hs
    simp only [Except.ok.injEq] at hs
    intro kv hkv
    rw [← hs] at hkv
    by_cases hmem : (acc.any fun kv => pyEqHashable kv.1 key) = true
    · rw [if_pos hmem] at hkv
      rw [List.mem_map] at hkv
      obtain ⟨kv0, hkv0, heq⟩ := hkv
      by_cases he : pyEqHashable kv0.1 key = true
      · rw [if_pos he] at heq
        rw [← heq]
        exact hc
      · rw [if_neg he] at heq
        rw [← heq]
        exact hacc kv0 hkv0
    · rw [if_neg hmem] at hkv
      rcases List.mem_append.mp hkv with hin | hlast
      · exact hacc kv hin
      · rw [List.mem_singleton.mp hlast]
        exact hc
  · rw [if_neg hh] at hs
    exact absurd hs (by simp)

theorem reactionEdgeStep_nonneg (acc : List (PyVal × Int)) (edge : PyVal)
    (acc2 : List (PyVal × Int))
    (hs : reactionEdgeStep acc edge = Except.ok acc2)
    (hedge : edgeOk edge = true) (hacc : ∀ kv ∈ acc, 0 ≤ kv.2) :
    ∀ kv ∈ acc2, 0 ≤ kv.2 := by
  cases edge with
  | VDict ek =>
      simp only [reactionEdgeStep] at hs
      simp only [edgeOk] at hedge
      revert hs hedge
      cases hnode : dictGetD ek (PyKey.s "node") (VDict []) with
      | VDict nk =>
          intro hs hedge
          simp only at hs hedge
          by_cases hif : pyTruthy (pyOr (dictGet nk (PyKey.s "localized_name"))
              (dictGet nk (PyKey.s "reaction_type"))) = true
              ∧ pyTruthy (pyOr (dictGet ek (PyKey.s "reaction_count"))
                  (dictGet ek (PyKey.s "i18n_reaction_count"))) = true
          · rw [if_pos hif] at hs
            cases hp : parse_count (pyOr (dictGet ek (PyKey.s "reaction_count"))
                (dictGet ek (PyKey.s "i18n_reaction_count"))) with
            | error u => rw [hp] at hs; simp at hs
            | ok c =>
                rw [hp] at hs
                have hcn : 0 ≤ c := by
                  rw [hif.1, hif.2] at hedge
                  simp only [Bool.and_self, Bool.not_true, Bool.false_or] at hedge
                  rw [parseNonneg, hp] at hedge
                  simpa using hedge
                exact assocSet_nonneg acc _ c acc2 hs hacc hcn
          · rw [if_neg hif] at hs
            simp only [Except.ok.injEq] at hs
            rw [← hs]
            exact hacc
      | VNone => intro hs _; simp at hs
      | VInt n => intro hs _; simp at hs
      | VFloat q => intro hs _; simp at hs
      | VStr s => intro hs _; simp at hs
      | VList xs => intro hs _; simp at hs
  | VNone => simp [reactionEdgeStep] at hs
  | VInt n => simp [reactionEdgeStep] at hs
  | VFloat q => simp [reactionEdgeStep] at hs
  | VStr s => simp [reactionEdgeStep] at hs
  | VList xs => simp [reactionEdgeStep] at hs

theorem foldlM_reactions_nonneg (edges : List PyVal) :
    ∀ (acc res : List (PyVal × Int)), (∀ e ∈ edges, edgeOk e = true) →
      (∀ kv ∈ acc, 0 ≤ kv.2) →
      List.foldlM reactionEdgeStep acc edges = Except.ok res →
      ∀ kv ∈ res, 0 ≤ kv.2 := by
  induction edges with
  | nil =>
      intro acc res _ hacc hf
      simp only [List.foldlM_nil, exceptPure, Except.ok.injEq] at hf
      rw [← hf]
      exact hacc
  | cons e rest ih =>
      intro acc res hall hacc hf
      rw [List.foldlM_cons] at hf
      cases hstep : reactionEdgeStep acc e with
      | error u => rw [hstep] at hf; simp at hf
      | ok acc1 =>
          rw [hstep] at hf
          simp only [exceptBind_ok] at hf
          exact ih acc1 res (fun x hx => hall x (List.mem_cons_of_mem e hx))
            (reactionEdgeStep_nonneg acc e acc1 hstep
              (hall e (List.mem_cons_self e rest)) hacc) hf

theorem extract_reactions_nonneg (story : PyVal) (rs : List (PyVal × Int))
    (hr : extract_reactions story = Except.ok rs)
    (hok : reactionSourcesOk story = true) : ∀ kv ∈ rs, 0 ≤ kv.2 := by
  simp only [extract_reactions] at hr
  simp only [reactionSourcesOk] at hok
  cases hu : pyTruthy (safe_get story ufiFeedbackPath) with
  | false =>
      rw [hu] at hr
      simp only [Bool.not_false, if_true, Except.ok.injEq] at hr
      rw [← hr]
      intro kv hkv
      simp at hkv
  | true =>
      rw [hu] at hr hok
      simp only [Bool.not_true, Bool.false_eq_true, if_false] at hr hok
      revert hr hok
      cases hufi : safe_get story ufiFeedbackPath with
      | VDict kvs =>
          intro hr hok
          simp only at hr
          rw [Bool.and_eq_true] at hok
          obtain ⟨hok1, hok2⟩ := hok
          have htail : ∀ acc0 : List (PyVal × Int), (∀ kv ∈ acc0, 0 ≤ kv.2) →
              (if !pyTruthy (safe_get (VDict kvs)
                    [PyKey.s "top_reactions", PyKey.s "edges"]) then
                  Except.ok acc0
               else
                 match safe_get (VDict kvs)
                     [PyKey.s "top_reactions", PyKey.s "edges"] with
                 | VList edges => edges.foldlM reactionEdgeStep acc0
                 | _ => Except.error ()) = Except.ok rs →
              ∀ kv ∈ rs, 0 ≤ kv.2 := by
            intro acc0 hacc htl
            cases htopr : pyTruthy (safe_get (VDict kvs)
                [PyKey.s "top_reactions", PyKey.s "edges"]) with
            | false =>
                rw [htopr] at htl
                simp only [Bool.not_false, if_true, Except.ok.injEq] at htl
                rw [← htl]
                exact hacc
            | true =>
                rw [htopr] at htl
                simp only [Bool.not_true, Bool.false_eq_true, if_false] at htl
                cases htv : safe_get (VDict kvs)
                    [PyKey.s "top_reactions", PyKey.s "edges"] with
                | VList edges =>
                    rw [htv] at htl hok2
                    have hall : ∀ e ∈ edges, edgeOk e = true := by
                      intro e he
                      exact List.all_eq_true.mp hok2 e he
                    exact foldlM_reactions_nonneg edges acc0 rs hall hacc htl
                | VNone => rw [htv] at htl; simp at htl
                | VInt n => rw [htv] at htl; simp at htl
                | VFloat q => rw [htv] at htl; simp at htl
                | VStr s => rw [htv] at htl; simp at htl
                | VDict kvs2 => rw [htv] at htl; simp at htl
          by_cases htot : pyTruthy (dictGet kvs (PyKey.s "i18n_reaction_count")) = true
          · rw [if_pos htot] at hr
            cases hp : parse_count (dictGet kvs (PyKey.s "i18n_reaction_count")) with
            | error u => rw [hp] at hr; simp at hr
            | ok c =>
                rw [hp] at hr
                simp only at hr
                cases ha : assocSet [] (VStr "total") c with
                | error u => rw [ha] at hr; simp at hr
                | ok acc0 =>
                    rw [ha] at hr
                    simp only at hr
                    have hcn : 0 ≤ c := by
                      rw [htot] at hok1
                      simp only [Bool.not_true, Bool.false_or] at hok1
                      rw [parseNonneg, hp] at hok1
                      simpa using hok1
                    exact htail acc0
                      (assocSet_nonneg [] _ c acc0 ha
                        (by intro kv hkv; simp at hkv) hcn) hr
          · rw [if_neg htot] at hr
            exact htail [] (by intro kv hkv; simp at hkv) hr
      | VNone =>
          intro hr hok
          rw [hufi] at hu
          simp [pyTruthy] at hu
      | VInt n => intro hr hok; simp at hr
      | VFloat q => intro hr hok; simp at hr
      | VStr s => intro hr hok; simp at hr
      | VList xs => intro hr hok; simp at hr

/- ### Claim theorems -/

/-- C7: path resolution (`safe_get`) returns the value at the path or the
absent value, short-circuiting to absent exactly as the PathResolver
contract describes — when the current node is absent, when the node is not
a mapping although the segment must act as a key, when an integer index
meets a non-sequence that is no mapping either, or when an index is out of
bounds — and, being a total function, no exception escapes it. -/
theorem safe_get_matches_path_resolver_spec (obj : PyVal) (segs : List PyKey) :
    safe_get obj segs = resolveSpec obj segs := by
  induction segs generalizing obj with
  | nil => cases obj <;> rfl
  | cons p rest ih =>
      cases obj with
      | VNone => rfl
      | VInt n => rfl
      | VFloat q => rfl
      | VStr s => rfl
      | VDict kvs =>
          show safe_get (dictGet kvs p) rest = resolveSpec (dictGet kvs p) rest
          exact ih _
      | VList xs =>
          cases p with
          | s str => rfl
          | i idx =>
              show (match listIndex xs idx with
                    | some v => safe_get v rest
                    | none => VNone) = resolveSpec (VList xs) (PyKey.i idx :: rest)
              cases h : listIndex xs idx with
              | none => simp [resolveSpec, h]
              | some v => simpa [resolveSpec, h] using ih v

/-- C10: the count parser maps every value that is neither a Python `int`
nor a `str` (so `None`, floats, lists, mappings) to 0 without raising. -/
theorem parse_count_other_types_zero (v : PyVal) (hi : isIntVal v = false)
    (hs : isStrVal v = false) : parse_count v = Except.ok 0 := by
  cases v <;> simp_all [isIntVal, isStrVal, parse_count]

/-- Witness for C10 at `None`. -/
theorem parse_count_other_types_zero_witness :
    parse_count VNone = Except.ok 0 :=
  parse_count_other_types_zero VNone rfl rfl

/-- C3 counterexample: the claim says no parse failure raises, but the `K`
branch applies `float()` outside any `try`: `parse_count("XK")` raises
`ValueError` (uppercased "XK" contains `K`, and `float("X")` fails). -/
theorem parse_count_raises_inside_K_branch :
    parse_count (VStr "XK") = Except.error () := rfl

/-- C3 (amended): the count parser returns ints unchanged and maps every
non-int non-string value to 0; a string is uppercased, comma-stripped and
stripped, then: if it contains `K` (checked first), the remainder with all
`K` removed goes through `float()` unguarded — yielding
`int(float * 1000)` when it parses and raising otherwise; else if it
contains `M`, likewise with `* 1000000`; else a `try`-guarded integer parse
returns 0 on failure, so such strings never raise.  The spec's examples
evaluate as listed.  Every branch clause is universal over inputs. -/
theorem parse_count_amended_behaviour :
    (∀ n : Int, parse_count (VInt n) = Except.ok n)
  ∧ (∀ v : PyVal, isIntVal v = false → isStrVal v = false →
      parse_count v = Except.ok 0)
  ∧ parse_count (VStr "2.9K") = Except.ok 2900
  ∧ parse_count (VStr "1.5M") = Except.ok 1500000
  ∧ parse_count (VStr "298") = Except.ok 298
  ∧ parse_count (VStr "garbage") = Except.ok 0
  ∧ parse_count (VInt 42) = Except.ok 42
  ∧ (∀ s : String, pyContainsChar (countPreprocess s) 'K' = false →
      pyContainsChar (countPreprocess s) 'M' = false →
      parse_count (VStr s)
        = Except.ok ((pyIntOfString (countPreprocess s)).getD 0))
  ∧ (∀ (s : String) (md : Int × Nat),
      pyContainsChar (countPreprocess s) 'K' = true →
      pyFloatOfString (pyDropChar (countPreprocess s) 'K') = some md →
      parse_count (VStr s)
        = Except.ok (pyTruncScaled (md.1 * 1000) (10 ^ md.2)))
  ∧ (∀ s : String, pyContainsChar (countPreprocess s) 'K' = true →
      pyFloatOfString (pyDropChar (countPreprocess s) 'K') = none →
      parse_count (VStr s) = Except.error ())
  ∧ (∀ (s : String) (md : Int × Nat),
      pyContainsChar (countPreprocess s) 'K' = false →
      pyContainsChar (countPreprocess s) 'M' = true →
      pyFloatOfString (pyDropChar (countPreprocess s) 'M') = some md →
      parse_count (VStr s)
        = Except.ok (pyTruncScaled (md.1 * 1000000) (10 ^ md.2)))
  ∧ (∀ s : String, pyContainsChar (countPreprocess s) 'K' = false →
      pyContainsChar (countPreprocess s) 'M' = true →
      pyFloatOfString (pyDropChar (countPreprocess s) 'M') = none →
      parse_count (VStr s) = Except.error ()) := by
  refine ⟨fun n => rfl, ?_, rfl, rfl, rfl, rfl, rfl, ?_, ?_, ?_, ?_, ?_⟩
  · intro v hi hs
    cases v <;> simp_all [isIntVal, isStrVal, parse_count]
  · intro s hK hM
    simp [parse_count, hK, hM]
  · intro s md hK hF
    simp [parse_count, hK, hF]
  · intro s hK hF
    simp [parse_count, hK, hF]
  · intro s md hK hM hF
    simp [parse_count, hK, hM, hF]
  · intro s hK hM hF
    simp [parse_count, hK, hM, hF]

/-- Witness for the amended C3: the non-int non-string clause at an empty
list, the guarded branch at `"298"`, the `K` value branch at `"2.9K"`, the
raising `K` branch at `"XK"`, the `M` value branch at `"1.5M"`, and the
raising `M` branch at `"XM"`. -/
theorem parse_count_amended_behaviour_witness :
    parse_count (VList []) = Except.ok 0
  ∧ parse_count (VStr "298")
      = Except.ok ((pyIntOfString (countPreprocess "298")).getD 0)
  ∧ parse_count (VStr "2.9K") = Except.ok (pyTruncScaled (29 * 1000) (10 ^ 1))
  ∧ parse_count (VStr "XK") = Except.error ()
  ∧ parse_count (VStr "1.5M")
      = Except.ok (pyTruncScaled (15 * 1000000) (10 ^ 1))
  ∧ parse_count (VStr "XM") = Except.error () :=
  ⟨parse_count_amended_behaviour.2.1 (VList []) rfl rfl,
   parse_count_amended_behaviour.2.2.2.2.2.2.2.1 "298" rfl rfl,
   parse_count_amended_behaviour.2.2.2.2.2.2.2.2.1 "2.9K" (29, 1) rfl rfl,
   parse_count_amended_behaviour.2.2.2.2.2.2.2.2.2.1 "XK" rfl rfl,
   parse_count_amended_behaviour.2.2.2.2.2.2.2.2.2.2.1 "1.5M" (15, 1) rfl rfl rfl,
   parse_count_amended_behaviour.2.2.2.2.2.2.2.2.2.2.2 "XM" rfl rfl rfl⟩

/-- C5: ingesting the same fully-identified entity set `N ≥ 1` times in
separate calls yields, for every record id `r`: exactly one master row when
some entity of the batch carries `r` and none otherwise (the upsert keyed
on `record_id` never duplicates masters), and exactly `N` snapshot rows per
entity with that id — `N` times the batch's multiplicity of `r`, since one
snapshot is appended per entity per call no matter whether the master was
inserted or updated. -/
theorem repeated_ingest_one_master_n_snapshots (h : PyVal → Int)
    (batch : List Post) (kw : String) (r : String) :
    ∀ (N : Nat) (db : DB), 1 ≤ N →
      (∀ e ∈ batch, pyTruthy e.id = true) →
      ingestIter h batch kw N = Except.ok db →
      db.posts.countP (fun p => p.post_id == r)
          = (if batch.any (fun e => recordId e.id == r) then 1 else 0)
        ∧ db.metrics.countP (fun m => m.post_id == r)
          = N * batch.countP (fun e => recordId e.id == r) := by
  intro N
  induction N with
  | zero => intro db hN; exact absurd hN (by omega)
  | succ n ih =>
      intro db hN hall hiter
      rw [ingestIter] at hiter
      cases hprev : ingestIter h batch kw n with
      | error u => rw [hprev] at hiter; simp at hiter
      | ok db0 =>
          rw [hprev] at hiter
          simp only [exceptBind_ok] at hiter
          cases hins : insert_posts h db0 batch kw (n : Int) with
          | error u => rw [hins] at hiter; simp at hiter
          | ok rr =>
              rw [hins] at hiter
              simp only [exceptBind_ok, exceptPure, Except.ok.injEq] at hiter
              rcases Nat.eq_zero_or_pos n with hz | hpos
              · subst hz
                rw [ingestIter] at hprev
                simp only [Except.ok.injEq] at hprev
                have hle : db0.posts.countP (fun p => p.post_id == r) ≤ 1 := by
                  rw [← hprev]
                  simp [emptyDB]
                have hc := insert_posts_countP h db0 batch kw (Nat.cast 0)
                  rr.1 rr.2 r hall hins hle
                constructor
                · rw [← hiter, hc.1, ← hprev]
                  simp [emptyDB]
                · rw [← hiter, hc.2, ← hprev]
                  simp [emptyDB]
              · have hprior := ih db0 hpos hall hprev
                have hle : db0.posts.countP (fun p => p.post_id == r) ≤ 1 := by
                  rw [hprior.1]
                  split <;> omega
                have hc := insert_posts_countP h db0 batch kw (Nat.cast n)
                  rr.1 rr.2 r hall hins hle
                constructor
                · rw [← hiter, hc.1, hprior.1]
                  by_cases hb : batch.any (fun e => recordId e.id == r) = true
                  · simp [hb]
                  · simp [hb]
                · rw [← hiter, hc.2, hprior.2]
                  ring

/-- Witness for C5: one entity ingested twice gives one master row and two
snapshot rows for its record id. -/
theorem repeated_ingest_one_master_n_snapshots_witness :
    (dbOfE (ingestIter hash0 [mkEntity (VStr "p1") "a"] "kw" 2)).posts.countP
        (fun p => p.post_id == "facebook_p1") = 1
  ∧ (dbOfE (ingestIter hash0 [mkEntity (VStr "p1") "a"] "kw" 2)).metrics.countP
        (fun m => m.post_id == "facebook_p1") = 2 := by
  have h := repeated_ingest_one_master_n_snapshots hash0
    [mkEntity (VStr "p1") "a"] "kw" "facebook_p1" 2
    (dbOfE (ingestIter hash0 [mkEntity (VStr "p1") "a"] "kw" 2))
    (by omega)
    (by
      intro e he
      rw [List.mem_singleton] at he
      subst he
      rfl)
    rfl
  constructor
  · rw [h.1]
    rfl
  · rw [h.2]
    rfl

/-- C6: the synthesized fallback author id is NOT stable across processes —
it is derived from the process-salted `hash()` builtin, so two processes
whose string hashes differ on the author name (here `"Unknown"`) produce
different `fb_user_*` ids from the identical unresolvable story. -/
theorem author_fallback_id_depends_on_process_hash :
    fallbackIdOf (extract_author_info hash0 (VDict [(.s "x", VInt 1)]))
        = some "fb_user_0"
  ∧ fallbackIdOf (extract_author_info hash1 (VDict [(.s "x", VInt 1)]))
        = some "fb_user_1"
  ∧ "fb_user_0" ≠ "fb_user_1" :=
  ⟨rfl, rfl, by decide⟩

/-- C1: on the spec's own trend scenario (A's only snapshot has engagement
50, B's later snapshot has 3, threshold 10) the code returns the empty
list, not `[A]`: the `$lookup` sub-pipeline compares the snapshot field
`'$post_id'` with itself instead of the `let` binding `'$$post_id'`, so
every master is joined with the globally latest snapshot (B's, engagement
3) and both fall below the threshold — although A's own latest snapshot
per the spec's join has engagement 50. -/
theorem get_trending_posts_joins_globally_latest :
    get_trending_posts trendDB none 24 10 0 = []
  ∧ specOwnLatestTotal trendDB "facebook_a" = some 50
  ∧ specOwnLatestTotal trendDB "facebook_b" = some 3 :=
  ⟨rfl, rfl, rfl⟩

/-- C2 counterexample: a batch of 3 entities of which exactly 1 lacks a
native id persists 2 master rows and 2 snapshot rows as claimed, but the
skipped entity is NOT counted: `errors` is 0, not 1 (the skip branch only
logs). -/
theorem insert_posts_skipped_entity_not_counted_in_errors :
    (statsOfD (insert_posts hash0 emptyDB batch3 "kw" 0)).errors = 0
  ∧ (dbOfD (insert_posts hash0 emptyDB batch3 "kw" 0)).posts.length = 2
  ∧ (dbOfD (insert_posts hash0 emptyDB batch3 "kw" 0)).metrics.length = 2 :=
  ⟨rfl, rfl, rfl⟩

/-- C2 (amended): entities lacking a native id are skipped — they
contribute no master upsert and no snapshot insert, the remaining entities
are still processed — but they are not counted: `errors` is 0 for every
normally completing batch, `metrics_inserted` and the snapshot growth equal
the number of entities with a truthy id, and the master table grows by at
most that number. -/
theorem insert_posts_skips_missing_ids (h : PyVal → Int) (db : DB)
    (batch : List Post) (kw : String) (now : Int) (db2 : DB)
    (st : InsertStats)
    (hins : insert_posts h db batch kw now = Except.ok (db2, st)) :
    st.errors = 0
  ∧ st.metrics_inserted = (batch.filter (fun e => pyTruthy e.id)).length
  ∧ db2.metrics.length
      = db.metrics.length + (batch.filter (fun e => pyTruthy e.id)).length
  ∧ db2.posts.length
      ≤ db.posts.length + (batch.filter (fun e => pyTruthy e.id)).length := by
  cases hb : buildDocs h batch kw (sessionIdOf now) now with
  | error u => rw [insert_posts] at hins; rw [hb] at hins; simp at hins
  | ok docs =>
      rw [insert_posts] at hins
      rw [hb] at hins
      simp only [exceptBind_ok, exceptPure, Except.ok.injEq, Prod.mk.injEq] at hins
      obtain ⟨hdb, hst⟩ := hins
      have hlen := buildDocs_length h batch kw (sessionIdOf now) now docs hb
      refine ⟨?_, ?_, ?_, ?_⟩
      · rw [← hst]
      · rw [← hst]; simpa using hlen
      · rw [← hdb]; simpa using hlen
      · rw [← hdb]
        have := applyOps_posts_length (docs.map Prod.fst) db.posts kw
          (sessionIdOf now) now
        simpa [hlen] using this

/-- Witness for the amended C2 at the three-entity scenario batch. -/
theorem insert_posts_skips_missing_ids_witness :
    (statsOfD (insert_posts hash0 emptyDB batch3 "kw" 60)).errors = 0
  ∧ (dbOfD (insert_posts hash0 emptyDB batch3 "kw" 60)).metrics.length
      = emptyDB.metrics.length
        + (batch3.filter (fun e => pyTruthy e.id)).length := by
  have h := insert_posts_skips_missing_ids hash0 emptyDB batch3 "kw" 60
    (dbOfD (insert_posts hash0 emptyDB batch3 "kw" 60))
    (statsOfD (insert_posts hash0 emptyDB batch3 "kw" 60)) rfl
  exact ⟨h.1, h.2.2.1⟩

/-- C4: re-ingesting an entity whose `record_id` already has a master row
leaves every `$setOnInsert` field of that row — author identity, content,
media URLs, creation time, category, platform and platform-native
metadata — exactly as the first ingestion wrote them (the document stays
`pd` in those fields), while the mutable fields move: `scraped_at`
(last-seen) becomes the second call's time, the session id becomes the
second call's session, and the second keyword is united into
`matched_keywords`. -/
theorem insert_posts_update_preserves_immutable_fields
    (h : PyVal → Int) (db : DB) (e e2 : Post) (kw kw2 : String) (n n2 : Int)
    (pd : PostDoc) (md : MetricsDoc) (db1 db2 : DB) (st1 st2 : InsertStats)
    (he : pyTruthy e.id = true) (he2 : pyTruthy e2.id = true)
    (hsame : recordId e2.id = recordId e.id)
    (hfresh : ∀ p ∈ db.posts, p.post_id ≠ recordId e.id)
    (htr : transform_post h e kw (sessionIdOf n) n = Except.ok (pd, md))
    (h1 : insert_posts h db [e] kw n = Except.ok (db1, st1))
    (h2 : insert_posts h db1 [e2] kw2 n2 = Except.ok (db2, st2)) :
    findPost db2 (recordId e.id)
      = some { pd with scraped_at := n2,
                       crawl_session_id := sessionIdOf n2,
                       matched_keywords := applyAddToSet [kw] kw2 } := by
  have hpid : pd.post_id = recordId e.id :=
    (transform_post_post_id h e kw (sessionIdOf n) n (pd, md) htr).1
  have hb1 : buildDocs h [e] kw (sessionIdOf n) n = Except.ok [(pd, md)] := by
    rw [buildDocs]
    simp [he, htr, buildDocs]
  rw [insert_posts, hb1] at h1
  simp only [exceptBind_ok, exceptPure] at h1
  have hany : db.posts.any (fun p => p.post_id == pd.post_id) = false := by
    rw [List.any_eq_false]
    intro p hp
    rw [hpid]
    simp only [beq_iff_eq]
    exact hfresh p hp
  rw [List.map_cons, List.map_nil, applyOps, hany] at h1
  simp only [Bool.false_eq_true, if_false, applyOps, List.map_cons,
    List.map_nil, Except.ok.injEq, Prod.mk.injEq] at h1
  obtain ⟨hdb1, hst1⟩ := h1
  cases ht2 : transform_post h e2 kw2 (sessionIdOf n2) n2 with
  | error u =>
      have hb2 : buildDocs h [e2] kw2 (sessionIdOf n2) n2 = Except.error u := by
        rw [buildDocs]
        simp [he2, ht2]
      rw [insert_posts, hb2] at h2
      simp at h2
  | ok t2 =>
      have hpid2 : t2.1.post_id = recordId e.id := by
        rw [(transform_post_post_id h e2 kw2 (sessionIdOf n2) n2 t2 ht2).1,
          hsame]
      have hb2 : buildDocs h [e2] kw2 (sessionIdOf n2) n2 = Except.ok [t2] := by
        rw [buildDocs]
        simp [he2, ht2, buildDocs]
      rw [insert_posts, hb2] at h2
      simp only [exceptBind_ok, exceptPure] at h2
      have hany2 : db1.posts.any (fun p => p.post_id == t2.1.post_id) = true := by
        rw [← hdb1]
        simp only [List.any_append, List.any_cons, List.any_nil]
        have : (insertedDoc pd kw (sessionIdOf n) n).post_id = pd.post_id := rfl
        simp [this, hpid, hpid2]
      rw [List.map_cons, List.map_nil, applyOps, hany2] at h2
      simp only [if_true, applyOps, Except.ok.injEq, Prod.mk.injEq] at h2
      obtain ⟨hdb2, hst2⟩ := h2
      have hposts1 : db1.posts = db.posts ++ [insertedDoc pd kw (sessionIdOf n) n] := by
        rw [← hdb1]
      have hup : updateFirst db1.posts t2.1.post_id kw2 (sessionIdOf n2) n2
          = db.posts ++ [updateExisting (insertedDoc pd kw (sessionIdOf n) n)
              kw2 (sessionIdOf n2) n2] := by
        rw [hposts1, hpid2]
        exact updateFirst_append_fresh db.posts _ _ kw2 (sessionIdOf n2) n2
          hfresh (by rw [show (insertedDoc pd kw (sessionIdOf n) n).post_id
            = pd.post_id from rfl, hpid])
      rw [findPost, ← hdb2, hup]
      rw [find_append_fresh db.posts _ _ hfresh
        (by rw [show (updateExisting (insertedDoc pd kw (sessionIdOf n) n)
            kw2 (sessionIdOf n2) n2).post_id = pd.post_id from rfl, hpid])]
      rfl

/-- Witness for C4: the spec's immutability scenario — ingest entity E with
text "A", then a same-id entity with text "B": the master keeps content "A"
while `scraped_at` advances to the second call's time. -/
theorem insert_posts_update_preserves_immutable_fields_witness :
    findPost
        (dbOfD (insert_posts hash0
          (dbOfD (insert_posts hash0 emptyDB [mkEntity (VStr "p1") "A"] "kw" 0))
          [mkEntity (VStr "p1") "B"] "kw2" 60))
        (recordId (mkEntity (VStr "p1") "A").id)
      = some { pdOf (transform_post hash0 (mkEntity (VStr "p1") "A") "kw"
                  (sessionIdOf 0) 0) with
               scraped_at := 60, crawl_session_id := sessionIdOf 60,
               matched_keywords := applyAddToSet ["kw"] "kw2" }
  ∧ (findPost
        (dbOfD (insert_posts hash0
          (dbOfD (insert_posts hash0 emptyDB [mkEntity (VStr "p1") "A"] "kw" 0))
          [mkEntity (VStr "p1") "B"] "kw2" 60))
        (recordId (mkEntity (VStr "p1") "A").id)).map PostDoc.content
      = some (VStr "A") := by
  constructor
  · exact insert_posts_update_preserves_immutable_fields hash0 emptyDB
      (mkEntity (VStr "p1") "A") (mkEntity (VStr "p1") "B") "kw" "kw2" 0 60
      (pdOf (transform_post hash0 (mkEntity (VStr "p1") "A") "kw"
        (sessionIdOf 0) 0))
      (mdOf (transform_post hash0 (mkEntity (VStr "p1") "A") "kw"
        (sessionIdOf 0) 0))
      (dbOfD (insert_posts hash0 emptyDB [mkEntity (VStr "p1") "A"] "kw" 0))
      (dbOfD (insert_posts hash0
        (dbOfD (insert_posts hash0 emptyDB [mkEntity (VStr "p1") "A"] "kw" 0))
        [mkEntity (VStr "p1") "B"] "kw2" 60))
      (statsOfD (insert_posts hash0 emptyDB [mkEntity (VStr "p1") "A"] "kw" 0))
      (statsOfD (insert_posts hash0
        (dbOfD (insert_posts hash0 emptyDB [mkEntity (VStr "p1") "A"] "kw" 0))
        [mkEntity (VStr "p1") "B"] "kw2" 60))
      rfl rfl rfl (by intro p hp; simp [emptyDB] at hp) rfl rfl rfl
  · rfl

/-- C8 counterexample: a node whose record substructure is present (a
truthy story dict) still aborts extraction — with an escaping exception —
when a present value at the comment-count path is a non-numeric string
(`int("X")` raises `ValueError`); so a missing record substructure is not
the only abort condition. -/
theorem extract_post_aborts_on_malformed_present_count :
    pyTruthy (safe_get (mkNodeWithCount (VStr "X")) storyPath) = true
  ∧ extract_post_from_node hash0 0 (mkNodeWithCount (VStr "X")) "k"
      = Except.error () :=
  ⟨rfl, rfl⟩

/-- C8 (amended): whenever the canonical record substructure is absent
(falsy) at the primary deep path, the extractor returns the reject result
and no exception escapes; but this is not the only whole-node abort
condition — present malformed field values raise (see the
counterexample). -/
theorem extract_post_rejects_absent_record (h : PyVal → Int) (now : Int)
    (node : PyVal) (kw : String)
    (habs : pyTruthy (safe_get node storyPath) = false) :
    extract_post_from_node h now node kw = Except.ok none := by
  simp [extract_post_from_node, habs]

/-- Witness for the amended C8 at a node with no story. -/
theorem extract_post_rejects_absent_record_witness :
    extract_post_from_node hash0 0 (VDict []) "k" = Except.ok none :=
  extract_post_rejects_absent_record hash0 0 (VDict []) "k" rfl

/-- C9 (amended): whenever extraction succeeds, the three metric fields and
all reaction counts are integers, and they are non-negative provided every
present value at the three count paths coerces to a non-negative integer
and every reaction count value parses non-negative — without such a
hypothesis they can be negative (see the counterexample). -/
theorem extract_post_counts_nonneg_of_nonneg_sources (h : PyVal → Int)
    (now : Int) (node : PyVal) (kw : String) (p : Post)
    (hex : extract_post_from_node h now node kw = Except.ok (some p))
    (hcc : countFieldOk (safe_get (safe_get node storyPath) commentCountPath)
        = true)
    (hsc : countFieldOk (safe_get (safe_get node storyPath) shareCountPath)
        = true)
    (hvc : countFieldOk (safe_get (safe_get node storyPath) viewCountPath)
        = true)
    (hre : reactionSourcesOk (safe_get node storyPath) = true) :
    0 ≤ p.comment_count ∧ 0 ≤ p.share_count ∧ 0 ≤ p.view_count
  ∧ ∀ kv ∈ p.reactions, 0 ≤ kv.2 := by
  simp only [extract_post_from_node] at hex
  cases hst : pyTruthy (safe_get node storyPath) with
  | false =>
      rw [hst] at hex
      simp at hex
  | true =>
      rw [hst] at hex
      simp only [Bool.not_true, Bool.false_eq_true, if_false] at hex
      cases h1 : pyGet (safe_get node storyPath) (PyKey.s "id") with
      | error u => rw [h1] at hex; simp at hex
      | ok pid =>
      rw [h1] at hex
      simp only [exceptBind_ok] at hex
      cases h2 : pyGetD (safe_get node storyPath) (PyKey.s "__typename")
          (VStr "Story") with
      | error u => rw [h2] at hex; simp at hex
      | ok ptype =>
      rw [h2] at hex
      simp only [exceptBind_ok] at hex
      cases h3 : extract_author_info h (safe_get node storyPath) with
      | error u => rw [h3] at hex; simp at hex
      | ok author =>
      rw [h3] at hex
      simp only [exceptBind_ok] at hex
      cases h4 : coerceCount (safe_get (safe_get node storyPath)
          commentCountPath) with
      | error u => rw [h4] at hex; simp at hex
      | ok cc =>
      rw [h4] at hex
      simp only [exceptBind_ok] at hex
      cases h5 : coerceCount (safe_get (safe_get node storyPath)
          shareCountPath) with
      | error u => rw [h5] at hex; simp at hex
      | ok sc =>
      rw [h5] at hex
      simp only [exceptBind_ok] at hex
      cases h6 : coerceCount (safe_get (safe_get node storyPath)
          viewCountPath) with
      | error u => rw [h6] at hex; simp at hex
      | ok vc =>
      rw [h6] at hex
      simp only [exceptBind_ok] at hex
      cases h7 : extract_reactions (safe_get node storyPath) with
      | error u => rw [h7] at hex; simp at hex
      | ok reacts =>
      rw [h7] at hex
      simp only [exceptBind_ok] at hex
      cases h8 : extract_attachments (safe_get node storyPath) with
      | error u => rw [h8] at hex; simp at hex
      | ok atts =>
      rw [h8] at hex
      simp only [exceptBind_ok, exceptPure, Except.ok.injEq,
        Option.some.injEq] at hex
      refine ⟨?_, ?_, ?_, ?_⟩
      · rw [← hex]
        exact coerceCount_nonneg _ cc h4 hcc
      · rw [← hex]
        exact coerceCount_nonneg _ sc h5 hsc
      · rw [← hex]
        exact coerceCount_nonneg _ vc h6 hvc
      · rw [← hex]
        exact extract_reactions_nonneg _ reacts h7 hre

/-- Witness for the amended C9 at a node whose comment count is a
non-negative 5 and whose other sources are absent. -/
theorem extract_post_counts_nonneg_of_nonneg_sources_witness :
    0 ≤ (getCommentCount (extract_post_from_node hash0 0
          (mkNodeWithCount (VInt 5)) "k")).getD 0 := by
  have h := extract_post_counts_nonneg_of_nonneg_sources hash0 0
    (mkNodeWithCount (VInt 5)) "k"
    ((extract_post_from_node hash0 0 (mkNodeWithCount (VInt 5)) "k").toOption.join.getD
      { id := VNone, type := VNone, keyword := "", collected_at := 0,
        extraction_method := VNone, text := VNone, author_id := VNone,
        owner := VNone, publish_time := VNone, comment_count := 0,
        share_count := 0, view_count := 0, reactions := [], attachments := [] })
    rfl rfl rfl rfl rfl
  simpa using h.1

/-- C9 counterexample: from a node carrying `-5` at the comment-count path
the extractor yields an entity whose `comment_count` is `-5` — the metric
fields are not clamped to be non-negative. -/
theorem extract_post_negative_comment_count :
    getCommentCount
        (extract_post_from_node hash0 0 (mkNodeWithCount (VInt (-5))) "k")
      = some (-5)
  ∧ ((-5 : Int) < 0) :=
  ⟨rfl, by decide⟩

end AutoCrawler
